import Mathlib

/-!
Verification development for the `tube` download service (`src/app.py`).

The Python source is shallowly embedded: pure fragments become Lean
functions; the external extraction backends (yt-dlp, gallery-dl), the
filesystem and the progress-event stream are oracles passed in as explicit
arguments; Python exceptions become the error channel of `Except`;
Python floats carrying download percentages become `Rat`; file
modification times become `Nat`.
-/

namespace Tube

/-- Scan for `pat` as a contiguous run starting at any position of `s`. -/
def hasSubList (pat : List Char) : List Char → Bool
  | [] => pat.isEmpty
  | c :: cs => pat.isPrefixOf (c :: cs) || hasSubList pat cs

/-- Literal substring test, modelling Python's `in` operator on strings
(used by `_is_requested_format_error`, `_is_youtube` and the
output-file scan `f"[{uid}]" in p.name`). -/
def containsStr (s pat : String) : Bool :=
  hasSubList pat.toList s.toList

/-- From `_is_youtube` (app.py line 87): substring check for the three
YouTube domains. -/
def is_youtube (url : String) : Bool :=
  containsStr url "youtube.com" || containsStr url "youtu.be" ||
    containsStr url "youtube-nocookie.com"

/-- ASCII lowercasing, modelling Python's `str.lower()` on the exception
message. -/
def lowerStr (s : String) : String :=
  (s.toList.map Char.toLower).asString

/-- Python's `str.strip()`: drop leading and trailing whitespace. -/
def stripStr (s : String) : String :=
  (((s.toList.dropWhile Char.isWhitespace).reverse.dropWhile
    Char.isWhitespace).reverse).asString

/-- From `_is_requested_format_error` (app.py line 96): yt-dlp reported an
unavailable format selector. -/
def is_requested_format_error (msg : String) : Bool :=
  containsStr (lowerStr msg) "requested format is not available"

/-- From `_sanitize` (app.py line 91): replace characters unsafe in
filenames by an underscore (`re.sub` over single characters). -/
def sanitize (name : String) : String :=
  name.map fun c =>
    if c ∈ ['\\', '/', '*', '?', ':', '"', '<', '>', '|'] then '_' else c

/-- Job status values stored in the in-memory job tracker. -/
inductive Status
  | queued | starting | downloading | processing | done | error
  deriving DecidableEq, Repr

/-- One record of the in-memory job tracker
`{"status", "progress", "filename", "error"}` (app.py line 55). -/
structure Job where
  status : Status
  progress : Rat
  filename : Option String
  error : Option String
  deriving DecidableEq, Repr

/-- The record created at submission time (app.py line 195). -/
def initJob : Job :=
  { status := .queued, progress := 0, filename := none, error := none }

/-! ## Format selector construction (app.py lines 332-361)

The worker builds the yt-dlp format-selector string for mp4 jobs from the
requested quality and the ffmpeg availability flag. -/

/-- The mp4 selector string, exactly as concatenated in the source
(app.py lines 333-355). -/
def videoFmtStr (quality : String) (ffmpeg : Bool) : String :=
  if ffmpeg then
    if quality == "best" then
      "bestvideo[ext=mp4]+bestaudio[ext=m4a]/bestvideo+bestaudio/best"
    else
      "bestvideo[ext=mp4][height<=" ++ quality ++ "]+bestaudio[ext=m4a]" ++
        "/bestvideo[height<=" ++ quality ++ "]+bestaudio" ++
        "/best[height<=" ++ quality ++ "]/best"
  else
    if quality == "best" then
      "best[ext=mp4]/best"
    else
      "best[ext=mp4][height<=" ++ quality ++ "]" ++
        "/best[height<=" ++ quality ++ "]/best[ext=mp4]/best"

/-- The ordered candidate list of a selector expression: yt-dlp tries the
alternatives separated by the `/` character from left to right. -/
def selectorAlternatives (s : String) : List String :=
  (s.toList.splitOn '/').map List.asString

/-- The format selector handed to the primary backend on the first
attempt: `bestaudio/best` for mp3 jobs (app.py line 324), the mp4
selector otherwise. -/
def primarySelector (fmt quality : String) (ffmpeg : Bool) : String :=
  if fmt == "mp3" then "bestaudio/best" else videoFmtStr quality ffmpeg

/-! ## Format-selector fallback ladder (app.py lines 363-394)

The yt-dlp backend call is an oracle `run : String → Except String Unit`
mapping a format-selector string to success or to the raised exception's
message.  The worker's retry loop is instrumented to also return the list
of selectors actually attempted, in order. -/

/-- The fallback selector list built at app.py lines 374-375:
`[merge_fmt, "best"]` when ffmpeg is available, `["best"]` otherwise. -/
def fallbackLadder (ffmpeg : Bool) : List String :=
  if ffmpeg then ["bestvideo*+bestaudio/best", "best"] else ["best"]

/-- The `for fb_fmt in fallbacks` loop (app.py lines 377-394): try each
fallback selector, stop at the first success; `last` carries `last_err`.
Returns the outcome together with the selectors attempted by the loop. -/
def tryFallbacks (run : String → Except String Unit) :
    List String → String → Except String Unit × List String
  | [], last => (.error last, [])
  | fb :: rest, _last =>
    match run fb with
    | .ok _ => (.ok (), [fb])
    | .error e =>
      let (r, attempted) := tryFallbacks run rest e
      (r, fb :: attempted)

/-- The whole `try ... except` around the primary backend call
(app.py lines 363-394): run the primary selector; on failure, re-raise
unless the failure is the requested-format error class and the job is not
mp3; otherwise walk the fallback ladder.  Returns the outcome together
with every selector handed to the backend, in order. -/
def downloadWithFallback (run : String → Except String Unit)
    (fmt quality : String) (ffmpeg : Bool) : Except String Unit × List String :=
  let primary := primarySelector fmt quality ffmpeg
  match run primary with
  | .ok _ => (.ok (), [primary])
  | .error exc =>
    if !(is_requested_format_error exc) || fmt == "mp3" then
      (.error exc, [primary])
    else
      let (r, attempted) := tryFallbacks run (fallbackLadder ffmpeg) exc
      (r, primary :: attempted)

/-! ## Output-file resolution (app.py lines 396-407) -/

/-- One entry of the download directory as seen by `DOWNLOAD_DIR.iterdir()`:
its name, whether it is a regular file, and its modification time
(`st_mtime`, abstracted to `Nat`). -/
structure DirEntry where
  name : String
  isFile : Bool
  mtime : Nat
  deriving DecidableEq, Repr

/-- The sorted candidate list of app.py lines 399-404: regular files whose
name contains the literal `[uid]` token, most recently modified first
(`sorted(..., key=mtime, reverse=True)`). -/
def outputCandidates (dir : List DirEntry) (uid : String) : List DirEntry :=
  (dir.filter fun p => p.isFile && containsStr p.name ("[" ++ uid ++ "]")).mergeSort
    fun a b => b.mtime ≤ a.mtime

/-- App.py lines 399-407: locate the produced file, or fail with the
`FileNotFoundError` message. -/
def locateOutput (dir : List DirEntry) (uid : String) : Except String String :=
  match outputCandidates dir uid with
  | [] => .error "Download completed but output file could not be located"
  | c :: _ => .ok c.name

/-! ## The download workers as functions (app.py lines 303-419, 453-504)

Each worker acquires the admission semaphore, runs its body inside
`try`, records `done`/`error` into the job record (`except Exception`
catches every body failure), and releases the semaphore in `finally`.
The body's possible exceptions travel on the `Except` error channel; the
semaphore operations performed are returned as an explicit trace. -/

/-- An operation on the `_dl_semaphore` admission gate. -/
inductive GateOp
  | acquire | release
  deriving DecidableEq, Repr

/-- Body of `_download_worker` after the status bookkeeping: the
(possibly retried) backend call followed by output-file resolution.
`dir` is the download directory as it stands after the backend call. -/
def download_worker_body (run : String → Except String Unit)
    (dir : List DirEntry) (uid fmt quality : String) (ffmpeg : Bool) :
    Except String String :=
  match (downloadWithFallback run fmt quality ffmpeg).1 with
  | .error e => .error e
  | .ok _ => locateOutput dir uid

/-- The `try/except/finally` skeleton shared by both workers
(app.py lines 306-419 and 454-504): on body success the job becomes
`done` with progress 100 and the filename; on any body failure the
`except Exception` handler records `error` with the exception's message;
the `finally` clause releases the semaphore on both paths. -/
def runGuarded (body : Except String String) : Job × List GateOp :=
  let acquired := [GateOp.acquire]
  match body with
  | .ok fn =>
    ({ initJob with status := .done, progress := 100, filename := some fn },
      acquired ++ [GateOp.release])
  | .error e =>
    ({ initJob with status := .error, error := some e },
      acquired ++ [GateOp.release])

/-- `_download_worker` (app.py lines 303-419) as a function from its
oracles to the final job record and the semaphore trace. -/
def download_worker (run : String → Except String Unit)
    (dir : List DirEntry) (uid fmt quality : String) (ffmpeg : Bool) :
    Job × List GateOp :=
  runGuarded (download_worker_body run dir uid fmt quality ffmpeg)

/-- One file produced by gallery-dl inside the per-job directory, carrying
its `pathlib` stem and suffix. -/
structure GalleryFile where
  stem : String
  suffix : String
  deriving DecidableEq, Repr

/-- The artifact name chosen at app.py lines 481-491: a sanitized rename
for exactly one file, a zip archive name otherwise. -/
def gallery_filename (uid : String) (files : List GalleryFile) : String :=
  match files with
  | [f] => sanitize f.stem ++ " [" ++ uid ++ "]" ++ f.suffix
  | _ => "gallery_" ++ uid ++ ".zip"

/-- Body of `_gallerydl_worker` (app.py lines 459-491): the gallery-dl
subprocess outcome `gdlRun` (a nonzero exit or timeout raises with the
stderr message), the produced file list, and the packaging step. -/
def gallerydl_worker_body (gdlRun : Except String Unit)
    (files : List GalleryFile) (uid : String) : Except String String :=
  match gdlRun with
  | .error e => .error e
  | .ok _ =>
    if files.isEmpty then .error "No files were downloaded"
    else .ok (gallery_filename uid files)

/-- `_gallerydl_worker` (app.py lines 453-504) as a function from its
oracles to the final job record and the semaphore trace. -/
def gallerydl_worker (gdlRun : Except String Unit)
    (files : List GalleryFile) (uid : String) : Job × List GateOp :=
  runGuarded (gallerydl_worker_body gdlRun files uid)

/-! ## Registry mutation traces (app.py lines 284-300, 303-419, 453-504)

Every write a worker performs on its job record happens inside one
`with jobs_lock` block; each block is one atomic event here.  The
progress hook's percent string, already parsed by `float(pct)`, is an
`Option Rat`: `none` models the swallowed `ValueError`. -/

/-- One invocation of the progress hook (`_make_progress_hook`,
app.py lines 284-300), as delivered by the backend. -/
inductive HookEv
  | downloading (pct : Option Rat)
  | finished
  deriving DecidableEq, Repr

/-- Effect of one hook invocation on the job record: a parsed percent
overwrites `progress` (an unparsable one is ignored) and status becomes
`downloading`; a `finished` event pins progress at 99 and status at
`processing`. -/
def applyHook (j : Job) : HookEv → Job
  | .downloading pct =>
    { j with progress := pct.getD j.progress, status := .downloading }
  | .finished => { j with progress := 99, status := .processing }

/-- One atomic job-record mutation performed under `jobs_lock`. -/
inductive Ev
  | hook (h : HookEv)
  | setStatus (s : Status)
  | finishDone (fn : String)
  | finishError (msg : String)
  deriving DecidableEq, Repr

/-- Effect of one mutation event.  `setStatus` is the bare status write
(`starting` in both workers, `downloading`/`processing` in the gallery
worker); `finishDone` is the success block (app.py lines 409-412,
493-496); `finishError` is the `except` block (lines 414-417, 498-501),
which does not touch `progress`. -/
def applyEv (j : Job) : Ev → Job
  | .hook h => applyHook j h
  | .setStatus s => { j with status := s }
  | .finishDone fn => { j with status := .done, progress := 100, filename := some fn }
  | .finishError m => { j with status := .error, error := some m }

/-- The successive job-record states along an event list, starting from
(and including) the initial state. -/
def runStates (j : Job) : List Ev → List Job
  | [] => [j]
  | e :: es => j :: runStates (applyEv j e) es

/-- How a worker run ends: the success block or the `except` block. -/
inductive Outcome
  | finished (fn : String)
  | failed (msg : String)
  deriving DecidableEq, Repr

/-- The terminal mutation of an outcome. -/
def outcomeEv : Outcome → Ev
  | .finished fn => .finishDone fn
  | .failed m => .finishError m

/-- The mutation trace of a `_download_worker` run: the `starting` write,
then the hook events delivered during the backend call(s), then the
terminal block.  A run that dies before or among the hooks is the case
of a shorter `hooks` list. -/
def ytTrace (hooks : List HookEv) (out : Outcome) : List Ev :=
  .setStatus .starting :: hooks.map Ev.hook ++ [outcomeEv out]

/-- The bare status writes of `_gallerydl_worker`, in program order
(app.py lines 457, 464, 479). -/
def galleryStatusEvs : List Ev :=
  [.setStatus .starting, .setStatus .downloading, .setStatus .processing]

/-- The mutation trace of a `_gallerydl_worker` run: the first `k` status
writes (the body may raise after any of them), then the terminal block. -/
def galleryTrace (k : Nat) (out : Outcome) : List Ev :=
  galleryStatusEvs.take k ++ [outcomeEv out]

/-! ## The reaper (app.py lines 511-527) -/

/-- `j["status"] in ("done", "error")` (app.py line 517). -/
def isTerminalStatus (s : Status) : Bool :=
  s == .done || s == .error

/-- Python truthiness of `job.get("filename")` (app.py line 521): `None`
and the empty string are falsy. -/
def truthyFilename (j : Job) : Option String :=
  match j.filename with
  | some f => if f == "" then none else some f
  | none => none

/-- The `for jid in stale` loop (app.py lines 518-526): pop each id from
the registry (an association list with unique keys) and attempt to
unlink its backing file; the unlink outcome `fails f` is computed and
discarded (`except OSError: pass`).  Returns the final registry and the
list of files whose deletion was attempted. -/
def cleanupLoop (fails : String → Bool) (m : List (String × Job)) :
    List String → List (String × Job) × List String
  | [] => (m, [])
  | jid :: rest =>
    let job := m.lookup jid
    let m1 := m.filter fun p => p.1 != jid
    let attempted :=
      match job with
      | some j =>
        match truthyFilename j with
        | some f =>
          let _failed := fails f
          [f]
        | none => []
      | none => []
    let r := cleanupLoop fails m1 rest
    (r.1, attempted ++ r.2)

/-- One sweep of `_cleanup_jobs` (app.py lines 515-526): collect the ids
of terminal jobs, then pop and clean each. -/
def cleanup_sweep (m : List (String × Job)) (fails : String → Bool) :
    List (String × Job) × List String :=
  let stale := (m.filter fun p => isTerminalStatus p.2.status).map Prod.fst
  cleanupLoop fails m stale

/-! ## Routes (app.py lines 136-229) -/

/-- Metadata returned by the primary backend's preview call. -/
structure MetaInfo where
  title : String
  thumbnail : String
  duration : Nat
  uploader : String
  deriving DecidableEq, Repr

/-- Outcome of the primary backend's metadata call: success,
`yt_dlp.utils.UnsupportedError` (the URL is not recognised at all), or
any other exception with its message. -/
inductive YdlOutcome
  | ok (info : MetaInfo)
  | unsupported
  | failed (msg : String)
  deriving DecidableEq, Repr

/-- Metadata synthesized from the gallery backend (`_gallerydl_info`,
app.py lines 432-450). -/
structure GdlInfo where
  title : String
  thumbnail : String
  count : Nat
  deriving DecidableEq, Repr

/-- Response of the `/info` route. -/
inductive InfoResp
  | okYdl (info : MetaInfo)
  | okGdl (info : GdlInfo)
  | errResp (msg : Option String)
  deriving DecidableEq, Repr

/-- `video_info` (app.py lines 136-176) with the two backends as oracles.
Returns the response together with whether the gallery backend was
consulted.  The gallery error response is `str(exc) or yt_err`: the
saved primary-backend message when the gallery message is empty. -/
def video_info (url : String) (ydl : YdlOutcome)
    (gdl : Except String GdlInfo) : InfoResp × Bool :=
  let u := stripStr url
  if u = "" then (.errResp (some "No URL provided."), false)
  else
    let runGallery := fun (ytErr : Option String) =>
      match gdl with
      | .ok g => (InfoResp.okGdl g, true)
      | .error e => (InfoResp.errResp (if e == "" then ytErr else some e), true)
    match ydl with
    | .ok info => (.okYdl info, false)
    | .unsupported => runGallery none
    | .failed msg =>
      if is_youtube u then (.errResp (some msg), false)
      else runGallery (some msg)

/-- The worker thread spawned by `start_download` (app.py lines 197-201),
with the arguments it is handed. -/
inductive WorkerCall
  | ydlCall (url fmt quality : String)
  | gdlCall (url : String)
  deriving DecidableEq, Repr

/-- `start_download` (app.py lines 179-202): validation, creation of the
queued job record, and worker dispatch. -/
def start_download (url fmt quality tool : String) :
    Except String (Job × WorkerCall) :=
  let u := stripStr url
  if u = "" then .error "No URL provided."
  else if fmt != "mp4" && fmt != "mp3" then .error "Invalid format."
  else if tool == "gallerydl" then .ok (initJob, .gdlCall u)
  else .ok (initJob, .ydlCall u fmt quality)

/-- Response of the `/file/<job_id>` route. -/
inductive FileResp
  | notFound
  | fileResp (name : String)
  | crash
  deriving DecidableEq, Repr

/-- `serve_file` (app.py lines 215-229): 404 unless the job exists, is
`done`, and its file is still on disk.  A `done` job with `filename`
`None` would make `DOWNLOAD_DIR / None` raise a `TypeError` (`crash`);
the workers never produce such a record. -/
def serve_file (job : Option Job) (fsExists : String → Bool) : FileResp :=
  match job with
  | none => .notFound
  | some j =>
    if j.status != .done then .notFound
    else
      match j.filename with
      | none => .crash
      | some fn => if fsExists fn then .fileResp fn else .notFound

/-! ## Theorems -/

/-- The semaphore trace of the shared worker skeleton, on either exit
path. -/
theorem runGuarded_gateOps (body : Except String String) :
    (runGuarded body).2 = [GateOp.acquire, GateOp.release] := by
  cases body <;> rfl

/-- Claim C3: every worker (both the primary-backend download worker and
the gallery worker) that acquires the admission-gate semaphore releases
it exactly once on every exit path — normal completion, recorded
failure, or unexpected exception (any failure travelling on the body's
error channel) — so a finished job never permanently decreases the
semaphore's available-slot count. -/
theorem gate_released_exactly_once (run : String → Except String Unit)
    (dir : List DirEntry) (uid fmt quality : String) (ffmpeg : Bool)
    (gdlRun : Except String Unit) (files : List GalleryFile) (guid : String) :
    ((download_worker run dir uid fmt quality ffmpeg).2.count GateOp.release = 1
      ∧ (download_worker run dir uid fmt quality ffmpeg).2.count GateOp.acquire = 1)
    ∧ ((gallerydl_worker gdlRun files guid).2.count GateOp.release = 1
      ∧ (gallerydl_worker gdlRun files guid).2.count GateOp.acquire = 1) := by
  refine ⟨⟨?_, ?_⟩, ⟨?_, ?_⟩⟩ <;>
    simp [download_worker, gallerydl_worker, runGuarded_gateOps]

/-- Claim C8: the per-job file route returns NotFound for a job id absent
from the registry, for a job in any non-`done` status, and for a `done`
job whose artifact no longer exists on disk; it returns the file with
its filename exactly when the job is `done` and the file exists. -/
theorem serve_file_spec (job : Option Job) (fs : String → Bool) :
    (job = none → serve_file job fs = .notFound)
    ∧ (∀ j, job = some j → j.status ≠ .done → serve_file job fs = .notFound)
    ∧ (∀ j fn, job = some j → j.status = .done → j.filename = some fn →
        fs fn = false → serve_file job fs = .notFound)
    ∧ (∀ j fn, job = some j → j.status = .done → j.filename = some fn →
        fs fn = true → serve_file job fs = .fileResp fn) := by
  refine ⟨?_, ?_, ?_, ?_⟩
  · rintro rfl; rfl
  · rintro j rfl hs
    simp [serve_file, hs]
  · rintro j fn rfl hs hf hfs
    simp [serve_file, hs, hf, hfs]
  · rintro j fn rfl hs hf hfs
    simp [serve_file, hs, hf, hfs]

/-- Witness for `serve_file_spec` at a concrete done job with its file on
disk. -/
theorem serve_file_spec_witness :
    serve_file (some { status := .done, progress := 100,
                       filename := some "clip [abc12345].mp4", error := none })
      (fun _ => true) = .fileResp "clip [abc12345].mp4" :=
  (serve_file_spec _ _).2.2.2 _ _ rfl rfl rfl rfl

/-- Claim C9: in metadata preview the gallery backend is consulted
exactly when the primary backend raises `UnsupportedError`, or when the
URL is not a YouTube URL and the primary backend fails for another
reason; a YouTube URL whose primary-backend call fails with anything
other than `UnsupportedError` is answered with that error immediately,
without consulting the gallery backend. -/
theorem video_info_fallback_spec (url : String) (ydl : YdlOutcome)
    (gdl : Except String GdlInfo) (hurl : stripStr url ≠ "") :
    (∀ info, ydl = .ok info →
      video_info url ydl gdl = (.okYdl info, false))
    ∧ (∀ msg, ydl = .failed msg → is_youtube (stripStr url) = true →
        video_info url ydl gdl = (.errResp (some msg), false))
    ∧ (ydl = .unsupported → (video_info url ydl gdl).2 = true)
    ∧ (∀ msg, ydl = .failed msg → is_youtube (stripStr url) = false →
        (video_info url ydl gdl).2 = true) := by
  refine ⟨?_, ?_, ?_, ?_⟩
  · rintro info rfl
    simp [video_info, hurl]
  · rintro msg rfl hyt
    simp [video_info, hurl, hyt]
  · rintro rfl
    cases gdl <;> simp [video_info, hurl]
  · rintro msg rfl hyt
    cases gdl <;> simp [video_info, hurl, hyt]

/-- Witness for `video_info_fallback_spec`: a YouTube URL whose primary
metadata call fails is answered immediately and the gallery backend is
not consulted. -/
theorem video_info_fallback_spec_witness :
    video_info "https://www.youtube.com/watch?v=x" (.failed "Sign in required")
      (.error "gallery-dl failed") = (.errResp (some "Sign in required"), false) :=
  (video_info_fallback_spec "https://www.youtube.com/watch?v=x" _ _
    (by decide)).2.1 _ rfl (by decide)

/-- Claim C10: a submission that selects the gallery tool dispatches a
worker that receives only the job id and URL; two valid submissions that
differ only in `format` and/or `quality` produce the same job record and
the same worker call. -/
theorem gallery_submission_independent (url f1 q1 f2 q2 : String)
    (h1 : f1 = "mp4" ∨ f1 = "mp3") (h2 : f2 = "mp4" ∨ f2 = "mp3") :
    start_download url f1 q1 "gallerydl" = start_download url f2 q2 "gallerydl" := by
  rcases h1 with rfl | rfl <;> rcases h2 with rfl | rfl <;> rfl

/-- Witness for `gallery_submission_independent` at two concrete
submissions differing in both format and quality. -/
theorem gallery_submission_independent_witness :
    start_download "https://example.com/g" "mp4" "1080" "gallerydl" =
      start_download "https://example.com/g" "mp3" "best" "gallerydl" :=
  gallery_submission_independent _ _ _ _ _ (.inl rfl) (.inr rfl)

/-- Claim C1: the download worker's fallback ladder.  A first-attempt
success retries nothing; a failure outside the requested-format error
class, or any failure of an mp3 job, is re-raised immediately with no
further backend call; a requested-format failure of an mp4 job walks
`bestvideo*+bestaudio/best` then `best` when ffmpeg is available (only
`best` without ffmpeg), stopping at the first success; if every rung
fails, the worker records status `error` with the last rung's message. -/
theorem format_fallback_ladder_spec (run : String → Except String Unit)
    (quality : String) (ffmpeg : Bool) :
    (run (primarySelector "mp4" quality ffmpeg) = .ok () →
      downloadWithFallback run "mp4" quality ffmpeg =
        (.ok (), [primarySelector "mp4" quality ffmpeg]))
    ∧ (∀ e, run (primarySelector "mp4" quality ffmpeg) = .error e →
        is_requested_format_error e = false →
        downloadWithFallback run "mp4" quality ffmpeg =
          (.error e, [primarySelector "mp4" quality ffmpeg]))
    ∧ (∀ e, run "bestaudio/best" = .error e →
        downloadWithFallback run "mp3" quality ffmpeg =
          (.error e, ["bestaudio/best"]))
    ∧ (∀ e, run (primarySelector "mp4" quality true) = .error e →
        is_requested_format_error e = true →
        (run "bestvideo*+bestaudio/best" = .ok () →
          downloadWithFallback run "mp4" quality true =
            (.ok (), [primarySelector "mp4" quality true,
              "bestvideo*+bestaudio/best"]))
        ∧ (∀ e1, run "bestvideo*+bestaudio/best" = .error e1 →
            run "best" = .ok () →
            downloadWithFallback run "mp4" quality true =
              (.ok (), [primarySelector "mp4" quality true,
                "bestvideo*+bestaudio/best", "best"]))
        ∧ (∀ e1 e2, run "bestvideo*+bestaudio/best" = .error e1 →
            run "best" = .error e2 →
            downloadWithFallback run "mp4" quality true =
              (.error e2, [primarySelector "mp4" quality true,
                "bestvideo*+bestaudio/best", "best"])))
    ∧ (∀ e, run (primarySelector "mp4" quality false) = .error e →
        is_requested_format_error e = true →
        (run "best" = .ok () →
          downloadWithFallback run "mp4" quality false =
            (.ok (), [primarySelector "mp4" quality false, "best"]))
        ∧ (∀ e1, run "best" = .error e1 →
            downloadWithFallback run "mp4" quality false =
              (.error e1, [primarySelector "mp4" quality false, "best"])))
    ∧ (∀ dir uid e, (downloadWithFallback run "mp4" quality ffmpeg).1 = .error e →
        download_worker run dir uid "mp4" quality ffmpeg =
          ({ initJob with status := .error, error := some e },
            [GateOp.acquire, GateOp.release])) := by
  refine ⟨?_, ?_, ?_, ?_, ?_, ?_⟩
  · intro h
    simp [downloadWithFallback, h]
  · intro e h hcls
    simp [downloadWithFallback, h, hcls]
  · intro e h
    simp [downloadWithFallback, primarySelector] at h ⊢
    simp [h]
  · intro e h hcls
    refine ⟨?_, ?_, ?_⟩
    · intro h1
      simp [downloadWithFallback, h, hcls, fallbackLadder, tryFallbacks, h1]
    · intro e1 h1 h2
      simp [downloadWithFallback, h, hcls, fallbackLadder, tryFallbacks, h1, h2]
    · intro e1 e2 h1 h2
      simp [downloadWithFallback, h, hcls, fallbackLadder, tryFallbacks, h1, h2]
  · intro e h hcls
    refine ⟨?_, ?_⟩
    · intro h1
      simp [downloadWithFallback, h, hcls, fallbackLadder, tryFallbacks, h1]
    · intro e1 h1
      simp [downloadWithFallback, h, hcls, fallbackLadder, tryFallbacks, h1]
  · intro dir uid e h
    simp [download_worker, download_worker_body, h, runGuarded]

/-- Witness for `format_fallback_ladder_spec`: a backend that rejects
everything but `best` with the requested-format error makes the worker
succeed on the ladder's last rung after attempting primary and merge
selectors in order. -/
theorem format_fallback_ladder_spec_witness :
    downloadWithFallback
      (fun s => if s == "best" then .ok ()
        else .error "Requested format is not available")
      "mp4" "720" true =
      (.ok (), [primarySelector "mp4" "720" true,
        "bestvideo*+bestaudio/best", "best"]) :=
  ((format_fallback_ladder_spec
      (fun s => if s == "best" then .ok ()
        else .error "Requested format is not available")
      "720" true).2.2.2.1 "Requested format is not available"
    (by rfl) (by decide)).2.1 "Requested format is not available"
    (by rfl) (by rfl)

/-- Claim C6 counterexample: with a numeric quality and no ffmpeg, the
selector ladder contains the candidate `best[ext=mp4]` strictly before
the final fallback, and that candidate carries no height constraint —
so it is not true that every candidate before the final fallback is
constrained to the requested height. -/
theorem selector_height_counterexample :
    "best[ext=mp4]" ∈ (selectorAlternatives (videoFmtStr "720" false)).dropLast
    ∧ containsStr "best[ext=mp4]" "[height<=720]" = false := by
  decide

/-- Claim C6 (amended): the selector is a function of
(quality, ffmpeg availability); with ffmpeg, every candidate except the
final `best` fallback is constrained to the requested height; without
ffmpeg, the first two candidates are constrained and the selector ends
with the two unconstrained fallbacks `best[ext=mp4]` and `best`; without
ffmpeg no candidate requests a video+audio merge (`+`), for numeric and
`best` quality alike. -/
theorem selector_ladder_spec (q : String)
    (hq : q ∈ ["2160", "1440", "1080", "720", "480", "360"]) :
    (selectorAlternatives (videoFmtStr q true) =
      ["bestvideo[ext=mp4][height<=" ++ q ++ "]+bestaudio[ext=m4a]",
        "bestvideo[height<=" ++ q ++ "]+bestaudio",
        "best[height<=" ++ q ++ "]", "best"])
    ∧ (∀ c ∈ (selectorAlternatives (videoFmtStr q true)).dropLast,
        containsStr c ("[height<=" ++ q ++ "]") = true)
    ∧ containsStr "best" ("[height<=" ++ q ++ "]") = false
    ∧ (selectorAlternatives (videoFmtStr q false) =
      ["best[ext=mp4][height<=" ++ q ++ "]", "best[height<=" ++ q ++ "]",
        "best[ext=mp4]", "best"])
    ∧ (∀ c ∈ (selectorAlternatives (videoFmtStr q false)).take 2,
        containsStr c ("[height<=" ++ q ++ "]") = true)
    ∧ (∀ c ∈ selectorAlternatives (videoFmtStr q false),
        containsStr c "+" = false)
    ∧ (∀ c ∈ selectorAlternatives (videoFmtStr "best" false),
        containsStr c "+" = false) := by
  fin_cases hq <;> decide

/-- Witness for `selector_ladder_spec` at quality 720. -/
theorem selector_ladder_spec_witness :
    selectorAlternatives (videoFmtStr "720" true) =
      ["bestvideo[ext=mp4][height<=720]+bestaudio[ext=m4a]",
        "bestvideo[height<=720]+bestaudio", "best[height<=720]", "best"] :=
  (selector_ladder_spec "720" (by decide)).1

/-- Claim C7: after a successful backend call the worker scans the
output directory for regular files whose name contains the literal
`[uid]` token, picks a most recently modified match, and fails with the
output-not-located message when nothing matches. -/
theorem locate_output_spec (dir : List DirEntry) (uid : String) :
    (dir.filter (fun p => p.isFile && containsStr p.name ("[" ++ uid ++ "]")) = [] →
      locateOutput dir uid =
        .error "Download completed but output file could not be located")
    ∧ (dir.filter (fun p => p.isFile && containsStr p.name ("[" ++ uid ++ "]")) ≠ [] →
      ∃ c ∈ dir.filter (fun p => p.isFile && containsStr p.name ("[" ++ uid ++ "]")),
        (∀ d ∈ dir.filter (fun p => p.isFile && containsStr p.name ("[" ++ uid ++ "]")),
          d.mtime ≤ c.mtime)
        ∧ locateOutput dir uid = .ok c.name) := by
  set hits := dir.filter (fun p => p.isFile && containsStr p.name ("[" ++ uid ++ "]"))
    with hm
  have hsort : outputCandidates dir uid =
      hits.mergeSort (fun a b => b.mtime ≤ a.mtime) := rfl
  constructor
  · intro h
    unfold locateOutput
    rw [hsort, h, List.mergeSort_nil]
  · intro h
    have hperm := List.mergeSort_perm hits (fun a b => b.mtime ≤ a.mtime)
    cases hcand : hits.mergeSort (fun a b => b.mtime ≤ a.mtime) with
    | nil =>
      rw [hcand] at hperm
      exact absurd hperm.symm.eq_nil h
    | cons c rest =>
      have hcmem : c ∈ hits := by
        have : c ∈ hits.mergeSort (fun a b => b.mtime ≤ a.mtime) := by
          rw [hcand]; exact List.mem_cons_self c rest
        exact List.mem_mergeSort.mp this
      refine ⟨c, hcmem, ?_, ?_⟩
      · intro d hd
        have hpw := @List.sorted_mergeSort DirEntry
          (fun a b => decide (b.mtime ≤ a.mtime))
          (fun a b cc hab hbc => by
            simp only [decide_eq_true_eq] at *
            exact le_trans hbc hab)
          (fun a b => by
            simp only [Bool.or_eq_true, decide_eq_true_eq]
            exact Nat.le_total b.mtime a.mtime)
          hits
        rw [hcand] at hpw
        have hds : d ∈ c :: rest := by
          rw [← hcand]
          exact List.mem_mergeSort.mpr hd
        rcases List.mem_cons.mp hds with rfl | hds
        · exact le_refl _
        · have := (List.pairwise_cons.mp hpw).1 d hds
          simpa using this
      · unfold locateOutput
        rw [hsort, hcand]

/-- Witness for `locate_output_spec` on a concrete directory holding two
token matches (mtimes 5 and 9), a non-matching file and a matching
directory. -/
theorem locate_output_spec_witness :
    ∃ c ∈ ([{ name := "a [u1234567].mp4", isFile := true, mtime := 5 },
        { name := "b [u1234567].mp4", isFile := true, mtime := 9 },
        { name := "junk.txt", isFile := true, mtime := 99 },
        { name := "g [u1234567]", isFile := false, mtime := 50 }] :
          List DirEntry).filter
        (fun p => p.isFile && containsStr p.name ("[" ++ "u1234567" ++ "]")),
      (∀ d ∈ ([{ name := "a [u1234567].mp4", isFile := true, mtime := 5 },
          { name := "b [u1234567].mp4", isFile := true, mtime := 9 },
          { name := "junk.txt", isFile := true, mtime := 99 },
          { name := "g [u1234567]", isFile := false, mtime := 50 }] :
            List DirEntry).filter
          (fun p => p.isFile && containsStr p.name ("[" ++ "u1234567" ++ "]")),
        d.mtime ≤ c.mtime)
      ∧ locateOutput
          [{ name := "a [u1234567].mp4", isFile := true, mtime := 5 },
            { name := "b [u1234567].mp4", isFile := true, mtime := 9 },
            { name := "junk.txt", isFile := true, mtime := 99 },
            { name := "g [u1234567]", isFile := false, mtime := 50 }]
          "u1234567" = .ok c.name :=
  (locate_output_spec _ "u1234567").2 (by decide)

/-- Looking up a key is unaffected by removing the entries of a different
key. -/
theorem lookup_filter_ne (m : List (String × Job)) (j jid : String) (h : j ≠ jid) :
    (m.filter fun p => p.1 != jid).lookup j = m.lookup j := by
  induction m with
  | nil => rfl
  | cons p m ih =>
    by_cases hp : p.1 = jid
    · have h1 : (p.1 != jid) = false := by simp [hp]
      have h2 : (j == p.1) = false := by simp [hp, h]
      simp [List.filter_cons, h1, List.lookup, h2, ih]
    · have h1 : (p.1 != jid) = true := by simp [hp]
      by_cases hj : j = p.1
      · simp [List.filter_cons, h1, List.lookup, hj]
      · have h2 : (j == p.1) = false := by simp [hj]
        simp [List.filter_cons, h1, List.lookup, h2, ih]

/-- The registry left behind by the reap loop: exactly the entries whose
key is not among the popped ids. -/
theorem cleanupLoop_registry (fails : String → Bool) (ids : List String) :
    ∀ m : List (String × Job),
    (cleanupLoop fails m ids).1 = m.filter fun p => !ids.contains p.1 := by
  induction ids with
  | nil => intro m; simp [cleanupLoop]
  | cons jid rest ih =>
    intro m
    simp only [cleanupLoop]
    rw [ih (m.filter fun p => p.1 != jid), List.filter_filter]
    apply List.filter_congr
    intro p _
    by_cases hp : p.1 = jid <;> simp [List.contains_cons, hp, Bool.not_or]

/-- The reap loop's result does not depend on whether the per-file
deletions succeed: `except OSError: pass` swallows every failure. -/
theorem cleanupLoop_fails_irrelevant (fails fails' : String → Bool) (ids : List String) :
    ∀ m, cleanupLoop fails m ids = cleanupLoop fails' m ids := by
  induction ids with
  | nil => intro m; rfl
  | cons jid rest ih =>
    intro m
    simp only [cleanupLoop, ih]

/-- The deletions attempted by the reap loop, for distinct popped ids. -/
theorem cleanupLoop_attempted (fails : String → Bool) (ids : List String) :
    ∀ m, ids.Nodup →
    (cleanupLoop fails m ids).2 =
      ids.filterMap fun jid => (m.lookup jid).bind truthyFilename := by
  induction ids with
  | nil => intro m _; rfl
  | cons jid rest ih =>
    intro m hnd
    have hjid : jid ∉ rest := (List.nodup_cons.mp hnd).1
    simp only [cleanupLoop]
    rw [ih _ (List.nodup_cons.mp hnd).2, List.filterMap_cons]
    have hcong : (rest.filterMap fun j =>
        ((m.filter fun p => p.1 != jid).lookup j).bind truthyFilename)
        = rest.filterMap fun j => (m.lookup j).bind truthyFilename := by
      apply List.filterMap_congr
      intro j hj
      rw [lookup_filter_ne m j jid (fun h => hjid (h ▸ hj))]
    cases hlk : m.lookup jid with
    | none => simp [hlk, hcong]
    | some j =>
      cases htf : truthyFilename j with
      | none => simp [hlk, htf, hcong]
      | some f => simp [hlk, htf, hcong]

/-- In a registry with pairwise-distinct keys, two entries sharing a key
coincide. -/
theorem entry_unique (m : List (String × Job)) (hnd : (m.map Prod.fst).Nodup)
    {p q : String × Job} (hp : p ∈ m) (hq : q ∈ m) (h : p.1 = q.1) : p = q := by
  induction m with
  | nil => cases hp
  | cons a m ih =>
    rw [List.map_cons] at hnd
    obtain ⟨ha, hnd'⟩ := List.nodup_cons.mp hnd
    rcases List.mem_cons.mp hp with rfl | hp' <;> rcases List.mem_cons.mp hq with rfl | hq'
    · rfl
    · exact absurd (h ▸ List.mem_map_of_mem Prod.fst hq') ha
    · exact absurd (h ▸ List.mem_map_of_mem Prod.fst hp') (h ▸ ha)
    · exact ih hnd' hp' hq'

/-- In a registry with pairwise-distinct keys, lookup of a present
entry's key returns that entry. -/
theorem lookup_mem_nodup (m : List (String × Job)) (hnd : (m.map Prod.fst).Nodup)
    {p : String × Job} (hp : p ∈ m) : m.lookup p.1 = some p.2 := by
  induction m with
  | nil => cases hp
  | cons a m ih =>
    rw [List.map_cons] at hnd
    obtain ⟨ha, hnd'⟩ := List.nodup_cons.mp hnd
    rcases List.mem_cons.mp hp with rfl | hp'
    · simp [List.lookup]
    · have hne : (p.1 == a.1) = false := by
        refine beq_false_of_ne fun hh => ha ?_
        exact hh ▸ List.mem_map_of_mem Prod.fst hp'
      simp [List.lookup, hne, ih hnd' hp']

/-- Claim C4: one reaper sweep removes from the registry exactly the
jobs whose status is terminal at sweep time (no age threshold), leaving
every non-terminal job untouched in place; it attempts to delete
precisely the backing file of each removed job with a (truthy) filename;
and its outcome is independent of which deletions fail, since per-file
failures are swallowed. -/
theorem cleanup_sweep_spec (m : List (String × Job)) (fails fails' : String → Bool)
    (hnd : (m.map Prod.fst).Nodup) :
    (cleanup_sweep m fails).1 = m.filter (fun p => !isTerminalStatus p.2.status)
    ∧ (cleanup_sweep m fails).2 =
      (m.filter fun p => isTerminalStatus p.2.status).filterMap
        (fun p => truthyFilename p.2)
    ∧ cleanup_sweep m fails = cleanup_sweep m fails' := by
  have hstale : ((m.filter fun p => isTerminalStatus p.2.status).map Prod.fst).Nodup :=
    hnd.sublist ((List.filter_sublist m).map Prod.fst)
  refine ⟨?_, ?_, ?_⟩
  · rw [cleanup_sweep, cleanupLoop_registry]
    apply List.filter_congr
    intro p hp
    congr 1
    by_cases ht : isTerminalStatus p.2.status = true
    · rw [ht]
      exact List.elem_eq_true_of_mem
        (List.mem_map_of_mem Prod.fst (List.mem_filter.mpr ⟨hp, ht⟩))
    · rw [Bool.not_eq_true] at ht
      rw [ht]
      refine Bool.eq_false_iff.mpr fun hc => ?_
      obtain ⟨q, hq, hq1⟩ := List.mem_map.mp (List.elem_iff.mp hc)
      obtain ⟨hqm, hqt⟩ := List.mem_filter.mp hq
      have : q = p := entry_unique m hnd hqm hp hq1
      rw [this] at hqt
      rw [hqt] at ht
      cases ht
  · rw [cleanup_sweep, cleanupLoop_attempted _ _ _ hstale, List.filterMap_map]
    apply List.filterMap_congr
    intro p hp
    have hpm : p ∈ m := (List.mem_filter.mp hp).1
    simp [Function.comp, lookup_mem_nodup m hnd hpm]
  · exact cleanupLoop_fails_irrelevant fails fails' _ m

/-- Witness for `cleanup_sweep_spec` on a registry holding a done job
with a file, a downloading job, and an error job without a file, under a
deletion oracle that fails every unlink. -/
theorem cleanup_sweep_spec_witness :
    (cleanup_sweep
      [("a", { status := .done, progress := 100, filename := some "x [a].mp4",
               error := none }),
        ("b", { status := .downloading, progress := 40, filename := none,
                error := none }),
        ("c", { status := .error, progress := 0, filename := none,
                error := some "boom" })] (fun _ => true)).1 =
      ([("a", { status := .done, progress := 100, filename := some "x [a].mp4",
                error := none }),
        ("b", { status := .downloading, progress := 40, filename := none,
                error := none }),
        ("c", { status := .error, progress := 0, filename := none,
                error := some "boom" })] :
          List (String × Job)).filter (fun p => !isTerminalStatus p.2.status) :=
  (cleanup_sweep_spec _ (fun _ => true) (fun _ => false) (by decide)).1

/-- The mutation events a worker performs strictly between job creation
and its terminal block: hook events and the bare non-terminal status
writes. -/
def isMidEv : Ev → Bool
  | .hook _ => true
  | .setStatus .starting => true
  | .setStatus .downloading => true
  | .setStatus .processing => true
  | _ => false

/-- The progress values the hook event stream writes, in order: a parsed
percent writes itself, `finished` writes 99, an unparsable percent
writes nothing. -/
def hookWrites : List HookEv → List Rat
  | [] => []
  | .downloading none :: hs => hookWrites hs
  | .downloading (some p) :: hs => p :: hookWrites hs
  | .finished :: hs => (99 : Rat) :: hookWrites hs

/-- The field discipline of one job record: `filename` and `error` are
never both populated, `filename` only in status `done`, `error` only in
status `error`. -/
def jobFieldInv (j : Job) : Prop :=
  (j.filename = none ∨ j.error = none)
  ∧ (j.filename ≠ none → j.status = .done)
  ∧ (j.error ≠ none → j.status = .error)

/-- Running a trace extended by one event appends one state. -/
theorem runStates_append (evs : List Ev) (e : Ev) :
    ∀ j : Job, runStates j (evs ++ [e]) =
      runStates j evs ++ [applyEv (evs.foldl applyEv j) e] := by
  induction evs with
  | nil => intro j; rfl
  | cons a as ih => intro j; simp [runStates, List.foldl, ih]

/-- The fold of a trace is its last visited state. -/
theorem foldl_mem_runStates (evs : List Ev) :
    ∀ j : Job, evs.foldl applyEv j ∈ runStates j evs := by
  induction evs with
  | nil => intro j; simp [runStates]
  | cons e es ih =>
    intro j
    simp only [runStates, List.foldl, List.mem_cons]
    exact Or.inr (ih (applyEv j e))

/-- Along any run of mid-execution events from a clean record, every
state keeps `filename`/`error` empty and never shows status `done`. -/
theorem mid_states_clean (evs : List Ev) :
    ∀ j : Job, (∀ e ∈ evs, isMidEv e = true) →
      j.filename = none → j.error = none → j.status ≠ .done →
      ∀ x ∈ runStates j evs,
        x.filename = none ∧ x.error = none ∧ x.status ≠ .done := by
  induction evs with
  | nil =>
    intro j _ h1 h2 h3 x hx
    simp [runStates] at hx
    subst hx
    exact ⟨h1, h2, h3⟩
  | cons e es ih =>
    intro j hmid h1 h2 h3 x hx
    simp only [runStates, List.mem_cons] at hx
    rcases hx with rfl | hx
    · exact ⟨h1, h2, h3⟩
    · have hm := hmid e (List.mem_cons_self e es)
      have h1' : (applyEv j e).filename = none := by
        cases e with
        | hook h => cases h <;> simpa [applyEv, applyHook] using h1
        | setStatus s => simpa [applyEv] using h1
        | finishDone fn => simp [isMidEv] at hm
        | finishError m => simp [isMidEv] at hm
      have h2' : (applyEv j e).error = none := by
        cases e with
        | hook h => cases h <;> simpa [applyEv, applyHook] using h2
        | setStatus s => simpa [applyEv] using h2
        | finishDone fn => simp [isMidEv] at hm
        | finishError m => simp [isMidEv] at hm
      have h3' : (applyEv j e).status ≠ Status.done := by
        cases e with
        | hook h => cases h <;> simp [applyEv, applyHook]
        | setStatus s =>
          cases s <;> simp [applyEv]
          simp [isMidEv] at hm
        | finishDone fn => simp [isMidEv] at hm
        | finishError m => simp [isMidEv] at hm
      exact ih (applyEv j e) (fun e' he' => hmid e' (List.mem_cons_of_mem e he')) h1' h2' h3' x hx

/-- Along any worker trace (mid events then one terminal block), every
observable state satisfies the field discipline, and `done` states carry
progress 100. -/
theorem trace_state_inv (mids : List Ev) (out : Outcome)
    (hmid : ∀ e ∈ mids, isMidEv e = true) :
    ∀ x ∈ runStates initJob (mids ++ [outcomeEv out]),
      jobFieldInv x ∧ (x.status = .done → x.progress = 100) := by
  intro x hx
  rw [runStates_append] at hx
  rcases List.mem_append.mp hx with hx | hx
  · have hc := mid_states_clean mids initJob hmid rfl rfl (by decide) x hx
    exact ⟨⟨Or.inl hc.1, fun hf => absurd hc.1 hf, fun he => absurd hc.2.1 he⟩,
      fun hd => absurd hd hc.2.2⟩
  · rw [List.mem_singleton] at hx
    subst hx
    have hlast := mid_states_clean mids initJob hmid rfl rfl (by decide) _
      (foldl_mem_runStates mids initJob)
    cases out with
    | finished fn =>
      refine ⟨⟨Or.inr ?_, fun _ => rfl, fun he => ?_⟩, fun _ => rfl⟩
      · simp [outcomeEv, applyEv, hlast.2.1]
      · exact absurd (by simp [outcomeEv, applyEv, hlast.2.1]) he
    | failed msg =>
      refine ⟨⟨Or.inl ?_, fun hf => ?_, fun _ => rfl⟩, fun hd => ?_⟩
      · simp [outcomeEv, applyEv, hlast.1]
      · exact absurd (by simp [outcomeEv, applyEv, hlast.1]) hf
      · simp [outcomeEv, applyEv] at hd

/-- The first state of a run is the starting record. -/
theorem runStates_progress_head (j : Job) (evs : List Ev) :
    ((runStates j evs).map Job.progress).head? = some j.progress := by
  cases evs <;> rfl

/-- From any record whose progress starts a non-decreasing chain of
bounded hook writes, the observed progress sequence of the rest of the
run is non-decreasing. -/
theorem hook_progress_chain (out : Outcome) (hooks : List HookEv) :
    ∀ j : Job, List.Chain (· ≤ ·) j.progress (hookWrites hooks) →
      (∀ p ∈ hookWrites hooks, p ≤ 100) → j.progress ≤ 100 →
      List.Chain' (· ≤ ·)
        ((runStates j (hooks.map Ev.hook ++ [outcomeEv out])).map Job.progress) := by
  induction hooks with
  | nil =>
    intro j _ _ h100
    cases out with
    | finished fn =>
      simp [runStates, outcomeEv, applyEv, List.chain'_cons, List.chain'_singleton, h100]
    | failed m =>
      simp [runStates, outcomeEv, applyEv, List.chain'_cons, List.chain'_singleton]
  | cons h hs ih =>
    intro j hchain hbound h100
    cases h with
    | downloading pct =>
      cases pct with
      | none =>
        simp only [List.map_cons, List.cons_append, runStates, List.map_cons]
        rw [List.chain'_cons']
        refine ⟨?_, ih _ hchain hbound h100⟩
        intro y hy
        rw [runStates_progress_head, Option.mem_some_iff] at hy
        subst hy
        simp [applyEv, applyHook]
      | some p =>
        cases hchain with
        | cons hle hch =>
          simp only [List.map_cons, List.cons_append, runStates, List.map_cons]
          rw [List.chain'_cons']
          refine ⟨?_, ih _ hch
            (fun q hq => hbound q (List.mem_cons_of_mem _ hq))
            (hbound p (List.mem_cons_self _ _))⟩
          intro y hy
          rw [runStates_progress_head, Option.mem_some_iff] at hy
          subst hy
          simpa [applyEv, applyHook] using hle
    | finished =>
      cases hchain with
      | cons hle hch =>
        simp only [List.map_cons, List.cons_append, runStates, List.map_cons]
        rw [List.chain'_cons']
        refine ⟨?_, ih _ hch
          (fun q hq => hbound q (List.mem_cons_of_mem _ hq))
          (by norm_num [applyEv, applyHook])⟩
        intro y hy
        rw [runStates_progress_head, Option.mem_some_iff] at hy
        subst hy
        simpa [applyEv, applyHook] using hle

/-- The pre-terminal events of a `_download_worker` trace are all mid
events. -/
theorem ytMids_mid (hooks : List HookEv) :
    ∀ e ∈ Ev.setStatus Status.starting :: hooks.map Ev.hook, isMidEv e = true := by
  intro e he
  rcases List.mem_cons.mp he with rfl | he
  · rfl
  · obtain ⟨h, _, rfl⟩ := List.mem_map.mp he
    rfl

/-- The pre-terminal events of a `_gallerydl_worker` trace are all mid
events. -/
theorem galleryMids_mid (k : Nat) :
    ∀ e ∈ galleryStatusEvs.take k, isMidEv e = true := by
  intro e he
  have hm := (List.take_sublist k galleryStatusEvs).subset he
  fin_cases hm <;> rfl

/-- Claim C5: along every trace of either worker, at most one of
`filename`/`error` is populated, `filename` is non-null only once the
status is `done`, and `error` is non-null only once the status is
`error` (each is set in the same atomic block as its terminal status). -/
theorem terminal_fields_spec :
    (∀ hooks out, ∀ x ∈ runStates initJob (ytTrace hooks out), jobFieldInv x)
    ∧ (∀ k out, ∀ x ∈ runStates initJob (galleryTrace k out), jobFieldInv x) := by
  constructor
  · intro hooks out x hx
    exact (trace_state_inv _ out (ytMids_mid hooks) x hx).1
  · intro k out x hx
    exact (trace_state_inv _ out (galleryMids_mid k) x hx).1

/-- Claim C2 (amended): along every trace of either worker, a `done`
state always carries progress exactly 100; the progress sequence is
non-decreasing provided the backend-reported percent stream (with
`finished` counted as 99) is itself non-decreasing from 0 and bounded by
100 — the hook copies backend percentages verbatim without clamping or
monotonising them; gallery-worker traces are unconditionally
non-decreasing. -/
theorem progress_spec :
    (∀ hooks out, ∀ x ∈ runStates initJob (ytTrace hooks out),
        x.status = .done → x.progress = 100)
    ∧ (∀ k out, ∀ x ∈ runStates initJob (galleryTrace k out),
        x.status = .done → x.progress = 100)
    ∧ (∀ hooks out, List.Chain (· ≤ ·) 0 (hookWrites hooks) →
        (∀ p ∈ hookWrites hooks, p ≤ 100) →
        List.Chain' (· ≤ ·)
          ((runStates initJob (ytTrace hooks out)).map Job.progress))
    ∧ (∀ k out, List.Chain' (· ≤ ·)
        ((runStates initJob (galleryTrace k out)).map Job.progress)) := by
  refine ⟨?_, ?_, ?_, ?_⟩
  · intro hooks out x hx
    exact (trace_state_inv _ out (ytMids_mid hooks) x hx).2
  · intro k out x hx
    exact (trace_state_inv _ out (galleryMids_mid k) x hx).2
  · intro hooks out hchain hbound
    show List.Chain' _ ((initJob ::
      runStates (applyEv initJob (.setStatus .starting))
        (hooks.map Ev.hook ++ [outcomeEv out])).map Job.progress)
    rw [List.map_cons, List.chain'_cons']
    refine ⟨?_, hook_progress_chain out hooks _ hchain hbound
      (by norm_num [applyEv, initJob])⟩
    intro y hy
    rw [runStates_progress_head, Option.mem_some_iff] at hy
    subst hy
    exact le_refl _
  · intro k out
    rcases k with _ | _ | _ | k <;> cases out <;>
      simp [galleryTrace, galleryStatusEvs, runStates, applyEv, outcomeEv, initJob,
        List.take_succ_cons, List.take_nil, List.chain'_cons, List.chain'_singleton]

/-- Claim C2 counterexample: the hook copies whatever percent the
backend reports, so a reported `100%` mid-transfer yields a reachable
state with progress 100 and status `downloading` (refuting `progress =
100 only if done`), and a decreasing percent stream yields a
non-monotone progress sequence before `processing`. -/
theorem progress_claim_counterexample :
    (∃ x ∈ runStates initJob
        (ytTrace [HookEv.downloading (some 100)] (.failed "boom")),
      x.progress = 100 ∧ x.status ≠ .done)
    ∧ ¬ List.Chain' (· ≤ ·)
        ((runStates initJob
          (ytTrace [HookEv.downloading (some 50), HookEv.downloading (some 40)]
            (.failed "boom"))).map Job.progress) := by
  constructor
  · decide
  · simp [ytTrace, runStates, applyEv, applyHook, outcomeEv, initJob,
      List.chain'_cons, List.chain'_singleton]
    norm_num

/-- Witness for `terminal_fields_spec` at the final state of a concrete
successful download trace. -/
theorem terminal_fields_spec_witness :
    jobFieldInv { status := .done, progress := 100,
                  filename := some "f [u].mp4", error := none } :=
  (terminal_fields_spec).1 [HookEv.downloading (some 50)] (.finished "f [u].mp4")
    _ (by decide)

/-- Witness for `progress_spec`: a concrete monotone hook stream yields
a monotone observed progress sequence. -/
theorem progress_spec_witness :
    List.Chain' (· ≤ ·) ((runStates initJob
      (ytTrace [HookEv.downloading (some 50), HookEv.finished]
        (.finished "f.mp4"))).map Job.progress) :=
  progress_spec.2.2.1 [HookEv.downloading (some 50), HookEv.finished]
    (.finished "f.mp4")
    (by
      simp only [hookWrites]
      exact List.Chain.cons (by norm_num)
        (List.Chain.cons (by norm_num) List.Chain.nil))
    (by
      intro p hp
      simp only [hookWrites] at hp
      rcases List.mem_cons.mp hp with rfl | hp
      · norm_num
      · rcases List.mem_singleton.mp hp with rfl
        norm_num)

end Tube
